import Mathlib

/-!
Verification of the demo-data-extension template engine and delivery pipeline.

The development shallowly embeds the core of `log_template_processor.py` and
`demo_data_loader_playbook.py`: the rolling date window, the position-based
distribution of items over the window, the recursive fail-open template
renderer, the structured (JSON-array) template processor and the delivery
loops with their partial-failure accounting.

External collaborators (the Python `json` module, the Jinja2 engine and the
`datetime` library) are not part of the repository; they are modelled from
the specification where a fact depends on them, and each such definition
carries a doc comment saying so.  Network transport is modelled by an oracle
list supplying the outcome of each HTTP call in order.
-/

/-! ## JSON values

An element of a structured template: an arbitrarily nested structure of
objects (with ordered keys), arrays, strings, integers, booleans and null.
Numbers are modelled as integers; the templates this program processes carry
only integer literals, and the renderer treats every number opaquely.
-/

inductive JsonValue where
  | str (s : String)
  | num (n : Int)
  | bool (b : Bool)
  | null
  | arr (items : List JsonValue)
  | obj (fields : List (String × JsonValue))
deriving Repr

/-! ## String helpers

Character-list implementations of the Python string operations the source
uses (`in` substring test, `.strip()`), kept structurally recursive so that
concrete instances evaluate by `rfl`/`decide`.
-/

/-- `startsWithChars pat l` holds when `pat` is an initial segment of `l`. -/
def startsWithChars : List Char → List Char → Bool
  | [], _ => true
  | _ :: _, [] => false
  | p :: ps, c :: cs => p == c && startsWithChars ps cs

/-- Scan every suffix of the haystack for the pattern. -/
def containsAux (pat : List Char) : List Char → Bool
  | [] => pat.isEmpty
  | c :: rest => startsWithChars pat (c :: rest) || containsAux pat rest

/-- Python's substring test `pat in s`. -/
def strContains (s pat : String) : Bool := containsAux pat.data s.data

/-- Whitespace test matching Python `str.strip` / `str.split` defaults. -/
def isWsChar (c : Char) : Bool := c == ' ' || c == '\n' || c == '\t' || c == '\r'

/-- Drop whitespace from both ends of a character list. -/
def trimChars (l : List Char) : List Char :=
  ((l.dropWhile isWsChar).reverse.dropWhile isWsChar).reverse

/-- Python `str.strip()`. -/
def stripStr (s : String) : String := String.mk (trimChars s.data)

/-! ## Calendar dates

Model of the slice of Python's `datetime` library the source uses:
a Gregorian calendar date, one-day subtraction (`timedelta(days=i)`),
the `strftime` formats appearing in `template_vars`, and the day difference
`(a - b).days`.  The `datetime` library is external to the repository; the
arithmetic here is the standard proleptic Gregorian calendar it implements.
-/

structure Date where
  year : Nat
  month : Nat
  day : Nat
deriving DecidableEq, Repr

def isLeapYear (y : Nat) : Bool :=
  y % 4 == 0 && (y % 100 != 0 || y % 400 == 0)

def daysInMonth (y m : Nat) : Nat :=
  if m == 2 then (if isLeapYear y then 29 else 28)
  else if m == 4 || m == 6 || m == 9 || m == 11 then 30
  else 31

/-- The calendar day immediately before `d`. -/
def prevDay (d : Date) : Date :=
  if 1 < d.day then ⟨d.year, d.month, d.day - 1⟩
  else if 1 < d.month then ⟨d.year, d.month - 1, daysInMonth d.year (d.month - 1)⟩
  else ⟨d.year - 1, 12, 31⟩

/-- `today - timedelta(days=n)`. -/
def subDays (d : Date) : Nat → Date
  | 0 => d
  | n + 1 => prevDay (subDays d n)

def pad2 (n : Nat) : String :=
  if n < 10 then "0" ++ toString n else toString n

def pad4 (n : Nat) : String :=
  if n < 10 then "000" ++ toString n
  else if n < 100 then "00" ++ toString n
  else if n < 1000 then "0" ++ toString n
  else toString n

/-- `strftime("%Y-%m-%d")`. -/
def formatISO (d : Date) : String :=
  pad4 d.year ++ "-" ++ pad2 d.month ++ "-" ++ pad2 d.day

/-- `strftime("%m/%d/%Y")`. -/
def format_us (d : Date) : String :=
  pad2 d.month ++ "/" ++ pad2 d.day ++ "/" ++ pad4 d.year

/-- `strftime("%d/%m/%Y")`. -/
def format_eu (d : Date) : String :=
  pad2 d.day ++ "/" ++ pad2 d.month ++ "/" ++ pad4 d.year

/-- `strftime("%Y%m%d")`. -/
def format_short (d : Date) : String :=
  pad4 d.year ++ pad2 d.month ++ pad2 d.day

/-- `strftime("%b")`. -/
def monthAbbrev : Nat → String
  | 1 => "Jan" | 2 => "Feb" | 3 => "Mar" | 4 => "Apr"
  | 5 => "May" | 6 => "Jun" | 7 => "Jul" | 8 => "Aug"
  | 9 => "Sep" | 10 => "Oct" | 11 => "Nov" | 12 => "Dec"
  | _ => ""

/-- `format_syslog_date` from the source: BSD syslog style `Mon DD` with the
day right-aligned in a field of width two (`f"{month} {day:2d}"`). -/
def format_syslog_date (d : Date) : String :=
  monthAbbrev d.month ++ " " ++
    (if d.day < 10 then " " ++ toString d.day else toString d.day)

/-- `get_past_week_dates` from the source: the ISO strings of the 7 days
ending at `today`, most recent first.  `today` is threaded as an explicit
parameter in place of `datetime.now().date()`. -/
def get_past_week_dates (today : Date) : List String :=
  (List.range 7).map (fun i => formatISO (subDays today i))

/-- Digit-string to number, most significant first. -/
def natOfDigits (l : List Char) : Nat :=
  l.foldl (fun a c => a * 10 + (c.toNat - '0'.toNat)) 0

/-- Parse a non-empty all-digit character list. -/
def parseNatChars (l : List Char) : Option Nat :=
  if l.isEmpty then none
  else if l.all (fun c => c.isDigit) then some (natOfDigits l) else none

/-- Split a character list on `'-'`. -/
def splitOnDash : List Char → List (List Char)
  | [] => [[]]
  | '-' :: rest => [] :: splitOnDash rest
  | c :: rest =>
      match splitOnDash rest with
      | [] => [[c]]
      | g :: gs => (c :: g) :: gs

/-- `datetime.strptime(s, "%Y-%m-%d")`, as used on the assigned date. -/
def parseISO (s : String) : Option Date :=
  match splitOnDash s.data with
  | [y, m, d] =>
      match parseNatChars y, parseNatChars m, parseNatChars d with
      | some y, some m, some d => some ⟨y, m, d⟩
      | _, _, _ => none
  | _ => none

/-- Leap years strictly before year `y` (years `1 .. y-1`). -/
def leapCount (y : Nat) : Nat :=
  (y - 1) / 4 - (y - 1) / 100 + (y - 1) / 400

/-- Days in year `y` strictly before month `m`. -/
def daysBeforeMonth (y m : Nat) : Nat :=
  ((List.range (m - 1)).map (fun k => daysInMonth y (k + 1))).sum

/-- Linear day number of a date (day 0 = January 1 of year 1). -/
def dayNumber (d : Date) : Nat :=
  365 * (d.year - 1) + leapCount d.year + daysBeforeMonth d.year d.month + (d.day - 1)

/-- `(a - b).days` for dates. -/
def date_diff (a b : Date) : Int :=
  (dayNumber a : Int) - (dayNumber b : Int)

/-! ## Template variables and placeholder evaluation

`template_vars` is the six-entry binding map built per item in
`process_json_template`.  The Jinja2 engine that consumes it is an external
library; `evalTemplate` below is modelled from the spec: a placeholder is a
double-brace-delimited expression naming one bound variable, and an unknown
variable or malformed (unterminated) expression makes the whole evaluation
fail.  Evaluation of `\x7b\x7b name \x7d\x7d` substitutes the bound value,
rendering the integer `day_offset` in decimal as Jinja2 does.
-/

structure TemplateVars where
  date : String
  date_us : String
  date_eu : String
  date_short : String
  syslog_date : String
  day_offset : Int
deriving DecidableEq, Repr

/-- Look up a bound variable by name, as Jinja2 resolves `\x7b\x7b name \x7d\x7d`
against the keyword arguments of `template.render(**template_vars)`. -/
def lookupVar (tv : TemplateVars) (name : String) : Option String :=
  if name == "date" then some tv.date
  else if name == "date_us" then some tv.date_us
  else if name == "date_eu" then some tv.date_eu
  else if name == "date_short" then some tv.date_short
  else if name == "syslog_date" then some tv.syslog_date
  else if name == "day_offset" then some (toString tv.day_offset)
  else none

/-- Split a character list at the first closing marker `\x7d\x7d`; `none`
when the marker never closes. -/
def findClose : List Char → Option (List Char × List Char)
  | [] => none
  | '\x7d' :: '\x7d' :: rest => some ([], rest)
  | c :: rest =>
      match findClose rest with
      | none => none
      | some (a, b) => some (c :: a, b)

/-- Modelled from the spec: one pass of Jinja2 evaluation over a character
list.  `fuel` strictly bounds the recursion (callers pass `length + 1`,
which is never exhausted since every step consumes at least one character);
the function is structurally recursive so that concrete runs reduce. -/
def evalAux (tv : TemplateVars) : Nat → List Char → Option (List Char)
  | 0, _ => none
  | _ + 1, [] => some []
  | fuel + 1, '\x7b' :: '\x7b' :: rest =>
      match findClose rest with
      | none => none
      | some (expr, rest') =>
          match lookupVar tv (String.mk (trimChars expr)) with
          | none => none
          | some v =>
              match evalAux tv fuel rest' with
              | none => none
              | some tail => some (v.data ++ tail)
  | fuel + 1, c :: rest =>
      match evalAux tv fuel rest with
      | none => none
      | some tail => some (c :: tail)

/-- Modelled from the spec: `env.from_string(s)` followed by
`template.render(**template_vars)`, collapsed to `none` on any evaluation
error (unknown variable, unterminated placeholder). -/
def evalTemplate (s : String) (tv : TemplateVars) : Option String :=
  match evalAux tv (s.data.length + 1) s.data with
  | none => none
  | some out => some (String.mk out)

/-! ## The renderer

`render_template_in_value` from the source: strings that contain both an
opening and a closing marker are evaluated, with the original string kept on
any evaluation failure; dictionaries and lists are rebuilt with every entry
rendered recursively in order; every other value passes through unchanged.
-/

mutual

def render_template_in_value (value : JsonValue) (tv : TemplateVars) : JsonValue :=
  match value with
  | .str s =>
      if strContains s "\x7b\x7b" && strContains s "\x7d\x7d" then
        match evalTemplate s tv with
        | some r => .str r
        | none => .str s
      else .str s
  | .obj fields => .obj (renderFields fields tv)
  | .arr items => .arr (renderList items tv)
  | v => v

def renderFields (fields : List (String × JsonValue)) (tv : TemplateVars) :
    List (String × JsonValue) :=
  match fields with
  | [] => []
  | (k, v) :: rest => (k, render_template_in_value v tv) :: renderFields rest tv

def renderList (items : List JsonValue) (tv : TemplateVars) : List JsonValue :=
  match items with
  | [] => []
  | v :: rest => render_template_in_value v tv :: renderList rest tv

end

/-! ## The distributor -/

/-- `distribute_dates` from the source: map item index `i` to
`dates[(i * len(dates)) // num_items]`.  The lookup is partial exactly where
Python's indexing raises `IndexError` (an empty `dates` with a positive
count); the whole distribution is then `none`. -/
def distribute_dates (num_items : Nat) (dates : List String) : Option (List String) :=
  if num_items = 0 then some []
  else (List.range num_items).mapM (fun i => dates[(i * dates.length) / num_items]?)

/-- The assignment formula as the spec states it (`Distributor.assign`):
item index `i` goes to window index `⌊i·W/N⌋`.  Stated from the spec's words
for comparison with `distribute_dates`. -/
def distribute_idx (num_items w : Nat) : List Nat :=
  if num_items = 0 then []
  else (List.range num_items).map (fun i => (i * w) / num_items)

/-! ## Structured parsing

`json.loads` is the Python standard library, external to the repository.
The parser below is modelled from the spec: structured content is JSON — an
ordered top-level array of arbitrarily nested objects/arrays/strings/
numbers/booleans/null — and any syntax violation is a parse failure.
Numbers are restricted to (optionally signed) integer literals and string
escapes to the single-character forms, matching every template this program
is given; recursion is fuelled so that concrete runs reduce.
-/

/-- Skip JSON insignificant whitespace. -/
def skipWs (l : List Char) : List Char := l.dropWhile isWsChar

/-- Parse the body of a string literal after the opening quote, handling
single-character escapes, up to and beyond the closing quote. -/
def parseStrAux : List Char → Option (List Char × List Char)
  | [] => none
  | '"' :: rest => some ([], rest)
  | '\\' :: c :: rest =>
      (parseStrAux rest).map (fun (s, r) =>
        ((if c == 'n' then '\n' else if c == 't' then '\t'
          else if c == 'r' then '\r' else c) :: s, r))
  | c :: rest => (parseStrAux rest).map (fun (s, r) => (c :: s, r))

/-- Parse a run of decimal digits. -/
def parseDigitsJson (l : List Char) : Option (Nat × List Char) :=
  let ds := l.takeWhile (fun c => c.isDigit)
  if ds.isEmpty then none else some (natOfDigits ds, l.drop ds.length)

mutual

/-- Modelled from the spec: parse one JSON value. -/
def parseVal : Nat → List Char → Option (JsonValue × List Char)
  | 0, _ => none
  | fuel + 1, l =>
      match skipWs l with
      | '"' :: rest => (parseStrAux rest).map (fun (s, r) => (.str (String.mk s), r))
      | 't' :: 'r' :: 'u' :: 'e' :: rest => some (.bool true, rest)
      | 'f' :: 'a' :: 'l' :: 's' :: 'e' :: rest => some (.bool false, rest)
      | 'n' :: 'u' :: 'l' :: 'l' :: rest => some (.null, rest)
      | '[' :: rest =>
          match skipWs rest with
          | ']' :: r => some (.arr [], r)
          | l' => (parseElems fuel l').map (fun (vs, r) => (.arr vs, r))
      | '\x7b' :: rest =>
          match skipWs rest with
          | '\x7d' :: r => some (.obj [], r)
          | l' => (parseMembers fuel l').map (fun (ms, r) => (.obj ms, r))
      | '-' :: rest => (parseDigitsJson rest).map (fun (n, r) => (.num (-(n : Int)), r))
      | c :: rest =>
          if c.isDigit then
            (parseDigitsJson (c :: rest)).map (fun (n, r) => (.num (n : Int), r))
          else none
      | [] => none

/-- Modelled from the spec: parse the comma-separated elements of a
non-empty array, consuming the closing bracket. -/
def parseElems : Nat → List Char → Option (List JsonValue × List Char)
  | 0, _ => none
  | fuel + 1, l =>
      match parseVal fuel l with
      | none => none
      | some (v, r) =>
          match skipWs r with
          | ',' :: r' => (parseElems fuel r').map (fun (vs, rr) => (v :: vs, rr))
          | ']' :: r' => some ([v], r')
          | _ => none

/-- Modelled from the spec: parse the comma-separated members of a
non-empty object, consuming the closing brace. -/
def parseMembers : Nat → List Char → Option (List (String × JsonValue) × List Char)
  | 0, _ => none
  | fuel + 1, l =>
      match skipWs l with
      | '"' :: rest =>
          match parseStrAux rest with
          | none => none
          | some (k, r) =>
              match skipWs r with
              | ':' :: r' =>
                  match parseVal fuel r' with
                  | none => none
                  | some (v, r'') =>
                      match skipWs r'' with
                      | ',' :: r3 =>
                          (parseMembers fuel r3).map
                            (fun (ms, rr) => ((String.mk k, v) :: ms, rr))
                      | '\x7d' :: r3 => some ([(String.mk k, v)], r3)
                      | _ => none
              | _ => none
      | _ => none

end

/-- Modelled from the spec: `json.loads`, requiring the whole input to be a
single JSON value with nothing but whitespace after it. -/
def json_loads (s : String) : Option JsonValue :=
  match parseVal (2 * s.data.length + 2) s.data with
  | some (v, rest) => if (skipWs rest).isEmpty then some v else none
  | none => none

/-- `is_json_array` from the source: the stripped content starts with `[`
and parses as JSON. -/
def is_json_array (content : String) : Bool :=
  let stripped := stripStr content
  if !(stripped.data.take 1 == ['[']) then false
  else (json_loads stripped).isSome

/-! ## The structured template processor -/

/-- The binding map built for one item from its assigned date string:
`strptime` the date back, then expose the six formatted variants.
`none` exactly when `strptime` would raise. -/
def make_template_vars (now : Date) (assigned_date : String) : Option TemplateVars :=
  (parseISO assigned_date).map (fun d =>
    { date := assigned_date
      date_us := format_us d
      date_eu := format_eu d
      date_short := format_short d
      syslog_date := format_syslog_date d
      day_offset := date_diff now d })

/-- The per-item loop of `process_json_template`: zip the items with their
assigned dates and render each against its binding map.  `now` stands for
`datetime.now().date()`. -/
def process_events (events : List JsonValue) (now : Date) : Option (List JsonValue) :=
  match distribute_dates events.length (get_past_week_dates now) with
  | none => none
  | some assignments =>
      (events.zip assignments).mapM (fun (e, ad) =>
        (make_template_vars now ad).map (fun tv => render_template_in_value e tv))

/-- `process_json_template` from the playbook: parse the stripped content,
reject a non-array top level, then render every item.  `Except.error` is the
fatal path (`json.JSONDecodeError` / `ValueError`, both caught by the
playbook before any delivery). -/
def process_json_template (content : String) (now : Date) :
    Except String (List JsonValue) :=
  match json_loads (stripStr content) with
  | none => Except.error "Invalid JSON in template"
  | some (JsonValue.arr events) =>
      match process_events events now with
      | some out => Except.ok out
      | none => Except.error "Playbook execution failed"
  | some _ => Except.error "JSON template must be an array of events"

/-! ## Delivery

The network is modelled by an oracle list giving, in order, the outcome of
each HTTP POST the loop performs: either a numeric response status or a
transport error (`URLError`, timeout, and every other exception raised by
the call).  A call beyond the end of the oracle is a transport error.
-/

inductive CallResult where
  | status (code : Nat)
  | transportError (msg : String)
deriving DecidableEq, Repr

/-- The per-call classification shared by both delivery loops:
`200 <= response.getcode() < 300` is success, any other status and any
transport error is failure. -/
def classify (r : CallResult) : Bool :=
  match r with
  | .status code => 200 ≤ code && code < 300
  | .transportError _ => false

/-- The failure description recorded by `send_events_to_webhook` for the
event at 0-based index `i`. -/
def eventErrorMsg (i : Nat) (r : CallResult) : String :=
  match r with
  | .status code => "Event " ++ toString (i + 1) ++ ": HTTP " ++ toString code
  | .transportError msg => "Event " ++ toString (i + 1) ++ ": " ++ msg

/-- Counters and failure descriptions accumulated by
`send_events_to_webhook`. -/
structure SendResult where
  successful : Nat
  failed : Nat
  errors : List String
deriving DecidableEq, Repr

/-- The loop body of `send_events_to_webhook`: one POST per event, counters
bumped by the call's classification, a description appended per failure,
never an early exit. -/
def send_loop (events : List JsonValue) (i : Nat) (oracle : List CallResult) :
    SendResult :=
  match events with
  | [] => ⟨0, 0, []⟩
  | _e :: rest =>
      let r := oracle.getD i (CallResult.transportError "connection failed")
      let tail := send_loop rest (i + 1) oracle
      if classify r then ⟨tail.successful + 1, tail.failed, tail.errors⟩
      else ⟨tail.successful, tail.failed + 1, eventErrorMsg i r :: tail.errors⟩

/-- `send_events_to_webhook` from the playbook. -/
def send_events_to_webhook (events : List JsonValue) (oracle : List CallResult) :
    SendResult :=
  send_loop events 0 oracle

/-- The aggregate result dictionary the playbook builds from the send
counters.  `errors` is the capped list (`errors[:10]`, empty when nothing
failed) and `errors_truncated` is present exactly when descriptions were
dropped. -/
structure AggResult where
  status : String
  events_total : Nat
  events_sent : Nat
  events_failed : Nat
  errors : List String
  errors_truncated : Option Nat
deriving DecidableEq, Repr

/-- The result-building tail of `playbook`. -/
def build_result (total : Nat) (sr : SendResult) : AggResult :=
  { status := if sr.failed = 0 then "success" else "partial"
    events_total := total
    events_sent := sr.successful
    events_failed := sr.failed
    errors := sr.errors.take 10
    errors_truncated :=
      if 10 < sr.errors.length then some (sr.errors.length - 10) else none }

/-- Outcome of one playbook run: the fatal-error field, the aggregate
result when delivery ran, and the number of HTTP calls performed. -/
structure RunOutcome where
  error : Option String
  result : Option AggResult
  calls : Nat
deriving DecidableEq, Repr

/-- The `playbook` pipeline after the template text has been fetched:
process the template, and only on success deliver every event (one call
each) and build the aggregate result.  A fatal processing error is returned
before any call is made. -/
def playbook (content : String) (now : Date) (oracle : List CallResult) :
    RunOutcome :=
  match process_json_template content now with
  | Except.error e => { error := some e, result := none, calls := 0 }
  | Except.ok events =>
      let sr := send_events_to_webhook events oracle
      { error :=
          if 0 < sr.failed then
            some ("Partial failure: " ++ toString sr.failed ++ "/" ++
              toString events.length ++ " events failed")
          else none
        result := some (build_result events.length sr)
        calls := events.length }

/-! ## Line-mode delivery

`send_to_webhook` from `log_template_processor.py`: lines are sent in
consecutive batches of `batch_size = 10`, one POST per batch, and the whole
batch length is credited to the bucket chosen by that single call's
classification.
-/

/-- The batches visited by `for i in range(0, total, 10)`:
`log_lines[i:i+10]` for each multiple of 10.  The fuel is the list length,
strictly more than the number of batches. -/
def batchesAux : Nat → List String → List (List String)
  | 0, _ => []
  | _ + 1, [] => []
  | fuel + 1, x :: xs => ((x :: xs).take 10) :: batchesAux fuel ((x :: xs).drop 10)

/-- The batch decomposition of the line list at the default batch size 10. -/
def batches10 (l : List String) : List (List String) := batchesAux l.length l

/-- The loop body of `send_to_webhook`: one POST per batch, both counters
bumped by the whole batch length according to the single call's outcome. -/
def sendBatchLoop (bs : List (List String)) (i : Nat) (oracle : List CallResult) :
    Nat × Nat :=
  match bs with
  | [] => (0, 0)
  | b :: rest =>
      let r := oracle.getD i (CallResult.transportError "connection failed")
      let tail := sendBatchLoop rest (i + 1) oracle
      if classify r then (tail.1 + b.length, tail.2)
      else (tail.1, tail.2 + b.length)

/-- `send_to_webhook` from the source at its default batch size, returning
`(successful, failed)`. -/
def send_to_webhook (log_lines : List String) (oracle : List CallResult) :
    Nat × Nat :=
  sendBatchLoop (batches10 log_lines) 0 oracle

/-- Total line count contributed to one outcome bucket: each batch's whole
length counts for the bucket selected by its single call. -/
def batchOutcomeSum (bs : List (List String)) (i : Nat) (oracle : List CallResult)
    (good : Bool) : Nat :=
  match bs with
  | [] => 0
  | b :: rest =>
      (if classify (oracle.getD i (CallResult.transportError "connection failed")) == good
        then b.length else 0) + batchOutcomeSum rest (i + 1) oracle good

/-! ## Marker-free values

A value contains no renderable placeholder when no string leaf carries both
an opening and a closing marker — the condition under which the renderer's
string branch skips evaluation entirely.
-/

mutual

def markerFree (v : JsonValue) : Bool :=
  match v with
  | .str s => !(strContains s "\x7b\x7b" && strContains s "\x7d\x7d")
  | .obj fields => markerFreeFields fields
  | .arr items => markerFreeList items
  | _ => true

def markerFreeFields (fields : List (String × JsonValue)) : Bool :=
  match fields with
  | [] => true
  | (_, v) :: rest => markerFree v && markerFreeFields rest

def markerFreeList (items : List JsonValue) : Bool :=
  match items with
  | [] => true
  | v :: rest => markerFree v && markerFreeList rest

end

/-! ## The three-item demo template of the end-to-end property -/

/-- One item of the end-to-end fixture:
`\x7b"msg": "day \x7b\x7bdate\x7d\x7d offset \x7b\x7bday_offset\x7d\x7d"\x7d`. -/
def demoEvent : JsonValue :=
  .obj [("msg", .str "day \x7b\x7bdate\x7d\x7d offset \x7b\x7bday_offset\x7d\x7d")]

/-- The 3-item structured template of the end-to-end property. -/
def demoTemplate : List JsonValue := [demoEvent, demoEvent, demoEvent]

/-- The same template as raw JSON text. -/
def demoText : String :=
  "[\x7b\"msg\": \"day \x7b\x7bdate\x7d\x7d offset \x7b\x7bday_offset\x7d\x7d\"\x7d," ++
  " \x7b\"msg\": \"day \x7b\x7bdate\x7d\x7d offset \x7b\x7bday_offset\x7d\x7d\"\x7d," ++
  " \x7b\"msg\": \"day \x7b\x7bdate\x7d\x7d offset \x7b\x7bday_offset\x7d\x7d\"\x7d]"

/-! ## Helper lemmas -/

/-- Induction principle for `JsonValue` that hands the inductive hypothesis
to every element of an array and every field value of an object. -/
theorem jsonInduction (P : JsonValue → Prop)
    (hstr : ∀ s, P (.str s)) (hnum : ∀ n, P (.num n))
    (hbool : ∀ b, P (.bool b)) (hnull : P .null)
    (harr : ∀ items, (∀ v, v ∈ items → P v) → P (.arr items))
    (hobj : ∀ fields, (∀ k v, (k, v) ∈ fields → P v) → P (.obj fields)) :
    ∀ v, P v
  | .str s => hstr s
  | .num n => hnum n
  | .bool b => hbool b
  | .null => hnull
  | .arr items => harr items (fun v hv =>
      jsonInduction P hstr hnum hbool hnull harr hobj v)
  | .obj fields => hobj fields (fun k v hv =>
      jsonInduction P hstr hnum hbool hnull harr hobj v)
termination_by v => sizeOf v
decreasing_by
  · have h1 := List.sizeOf_lt_of_mem hv
    simp only [JsonValue.arr.sizeOf_spec]
    omega
  · have h1 := List.sizeOf_lt_of_mem hv
    have h2 : sizeOf v < sizeOf (k, v) := by
      simp only [Prod.mk.sizeOf_spec]
      omega
    simp only [JsonValue.obj.sizeOf_spec]
    omega

theorem renderList_eq_map (items : List JsonValue) (tv : TemplateVars) :
    renderList items tv = items.map (fun v => render_template_in_value v tv) := by
  induction items with
  | nil => simp [renderList]
  | cons v rest ih => simp [renderList, ih]

theorem renderFields_eq_map (fields : List (String × JsonValue)) (tv : TemplateVars) :
    renderFields fields tv =
      fields.map (fun kv => (kv.1, render_template_in_value kv.2 tv)) := by
  induction fields with
  | nil => simp [renderFields]
  | cons kv rest ih =>
      obtain ⟨k, v⟩ := kv
      simp [renderFields, ih]

theorem markerFreeList_mem (items : List JsonValue) (h : markerFreeList items = true) :
    ∀ v ∈ items, markerFree v = true := by
  induction items with
  | nil => intro v hv; cases hv
  | cons x rest ih =>
      rw [markerFreeList, Bool.and_eq_true] at h
      intro v hv
      rcases List.mem_cons.mp hv with rfl | hv'
      · exact h.1
      · exact ih h.2 v hv'

theorem markerFreeFields_mem (fields : List (String × JsonValue))
    (h : markerFreeFields fields = true) :
    ∀ kv ∈ fields, markerFree kv.2 = true := by
  induction fields with
  | nil => intro kv hkv; cases hkv
  | cons x rest ih =>
      obtain ⟨k, v⟩ := x
      rw [markerFreeFields, Bool.and_eq_true] at h
      intro kv hkv
      rcases List.mem_cons.mp hkv with rfl | hkv'
      · exact h.1
      · exact ih h.2 kv hkv'

theorem send_loop_counts (events : List JsonValue) (i : Nat) (oracle : List CallResult) :
    (send_loop events i oracle).successful + (send_loop events i oracle).failed =
      events.length ∧
    (send_loop events i oracle).errors.length = (send_loop events i oracle).failed := by
  induction events generalizing i with
  | nil => simp [send_loop]
  | cons e rest ih =>
      obtain ⟨h1, h2⟩ := ih (i + 1)
      simp only [send_loop, List.length_cons]
      split
      · dsimp only
        exact ⟨by omega, h2⟩
      · dsimp only
        refine ⟨by omega, ?_⟩
        simp only [List.length_cons]
        omega

theorem mapM_option_of_forall_some {α β : Type} (f : α → Option β) (g : α → β)
    (l : List α) (h : ∀ a ∈ l, f a = some (g a)) :
    l.mapM f = some (l.map g) := by
  induction l with
  | nil => rfl
  | cons a rest ih =>
      rw [List.mapM_cons, h a (List.mem_cons_self a rest),
        ih (fun x hx => h x (List.mem_cons_of_mem a hx))]
      rfl

theorem distribute_dates_eq (n : Nat) (dates : List String) (hn : n ≠ 0)
    (hW : 1 ≤ dates.length) :
    distribute_dates n dates =
      some ((List.range n).map (fun i => dates.getD ((i * dates.length) / n) "")) := by
  unfold distribute_dates
  rw [if_neg hn]
  apply mapM_option_of_forall_some
  intro i hi
  rw [List.mem_range] at hi
  have hidx : (i * dates.length) / n < dates.length := by
    rw [Nat.div_lt_iff_lt_mul (by omega : 0 < n)]
    calc i * dates.length < n * dates.length :=
          mul_lt_mul_of_pos_right hi (by omega)
      _ = dates.length * n := Nat.mul_comm _ _
  rw [List.getElem?_eq_getElem hidx, List.getD_eq_getElem dates "" hidx]

theorem batchesAux_nil (fuel : Nat) : batchesAux fuel [] = [] := by
  cases fuel <;> rfl

theorem batchesAux_join (fuel : Nat) (l : List String) (h : l.length ≤ fuel) :
    (batchesAux fuel l).flatten = l := by
  induction fuel generalizing l with
  | zero =>
      cases l with
      | nil => simp [batchesAux]
      | cons x xs => simp at h
  | succ fuel ih =>
      cases l with
      | nil => simp [batchesAux]
      | cons x xs =>
          rw [show batchesAux (fuel + 1) (x :: xs) =
            ((x :: xs).take 10) :: batchesAux fuel ((x :: xs).drop 10) from rfl]
          rw [List.flatten_cons, ih]
          · exact List.take_append_drop 10 (x :: xs)
          · simp only [List.length_drop, List.length_cons] at *
            omega

theorem batchesAux_mem (fuel : Nat) (l : List String) (h : l.length ≤ fuel)
    (b : List String) (hb : b ∈ batchesAux fuel l) :
    0 < b.length ∧ b.length ≤ 10 := by
  induction fuel generalizing l with
  | zero =>
      rw [show batchesAux 0 l = [] from rfl] at hb
      cases hb
  | succ fuel ih =>
      cases l with
      | nil =>
          rw [batchesAux_nil] at hb
          cases hb
      | cons x xs =>
          rw [show batchesAux (fuel + 1) (x :: xs) =
            ((x :: xs).take 10) :: batchesAux fuel ((x :: xs).drop 10) from rfl] at hb
          rcases List.mem_cons.mp hb with rfl | hb'
          · simp only [List.length_take, List.length_cons]
            omega
          · refine ih ((x :: xs).drop 10) ?_ hb'
            simp only [List.length_drop, List.length_cons] at *
            omega

theorem batchesAux_nonlast (fuel : Nat) (l : List String) (k : Nat)
    (h : l.length ≤ fuel) (hk : k + 1 < (batchesAux fuel l).length) :
    ((batchesAux fuel l).getD k []).length = 10 := by
  induction fuel generalizing l k with
  | zero =>
      rw [show batchesAux 0 l = [] from rfl] at hk
      simp at hk
  | succ fuel ih =>
      cases l with
      | nil =>
          rw [batchesAux_nil] at hk
          simp at hk
      | cons x xs =>
          rw [show batchesAux (fuel + 1) (x :: xs) =
            ((x :: xs).take 10) :: batchesAux fuel ((x :: xs).drop 10) from rfl] at hk ⊢
          cases k with
          | zero =>
              simp only [List.length_cons] at hk
              have hne : batchesAux fuel ((x :: xs).drop 10) ≠ [] := by
                intro hnil
                rw [hnil] at hk
                simp at hk
              have hdrop : (x :: xs).drop 10 ≠ [] := by
                intro hnil
                rw [hnil, batchesAux_nil] at hne
                exact hne rfl
              have hlen : 10 < (x :: xs).length := by
                by_contra hle
                exact hdrop (List.drop_eq_nil_of_le (by omega))
              simp only [List.getD_cons_zero, List.length_take]
              omega
          | succ k =>
              simp only [List.getD_cons_succ]
              refine ih ((x :: xs).drop 10) k ?_ ?_
              · simp only [List.length_drop, List.length_cons] at *
                omega
              · simp only [List.length_cons] at hk
                omega

theorem sendBatchLoop_eq (bs : List (List String)) (i : Nat) (oracle : List CallResult) :
    sendBatchLoop bs i oracle =
      (batchOutcomeSum bs i oracle true, batchOutcomeSum bs i oracle false) := by
  induction bs generalizing i with
  | nil => rfl
  | cons b rest ih =>
      simp only [sendBatchLoop, batchOutcomeSum, ih (i + 1)]
      by_cases hc :
        classify (oracle.getD i (CallResult.transportError "connection failed")) = true
      · rw [if_pos hc, hc]
        simp [Nat.add_comm]
      · rw [if_neg hc]
        rw [Bool.not_eq_true] at hc
        rw [hc]
        simp [Nat.add_comm]

theorem batchOutcomeSum_total (bs : List (List String)) (i : Nat)
    (oracle : List CallResult) :
    batchOutcomeSum bs i oracle true + batchOutcomeSum bs i oracle false =
      (bs.map List.length).sum := by
  induction bs generalizing i with
  | nil => rfl
  | cons b rest ih =>
      simp only [batchOutcomeSum, List.map_cons, List.sum_cons]
      have := ih (i + 1)
      by_cases hc :
        classify (oracle.getD i (CallResult.transportError "connection failed")) = true
      · rw [hc]
        simp
        omega
      · rw [Bool.not_eq_true] at hc
        rw [hc]
        simp
        omega

theorem assign_hits_every_index (count W j : Nat) (hW : 1 ≤ W) (hcW : W ≤ count)
    (hj : j < W) : ∃ i, i < count ∧ (i * W) / count = j := by
  have hc : 0 < count := by omega
  refine ⟨(j * count + W - 1) / W, ?_, ?_⟩
  all_goals
    have hdm := Nat.div_add_mod (j * count + W - 1) W
    have hr : (j * count + W - 1) % W < W := Nat.mod_lt _ (by omega)
    have h3 : j * count ≤ (W - 1) * count := Nat.mul_le_mul_right count (by omega)
    rw [Nat.sub_one_mul] at h3
    have h5 : count ≤ W * count := Nat.le_mul_of_pos_left count (by omega)
  · by_contra hge
    push_neg at hge
    have h6 : W * count ≤ W * ((j * count + W - 1) / W) :=
      Nat.mul_le_mul_left W hge
    omega
  · have hle : j ≤ ((j * count + W - 1) / W * W) / count := by
      rw [Nat.le_div_iff_mul_le hc, Nat.mul_comm _ W]
      omega
    have hlt : ((j * count + W - 1) / W * W) / count < j + 1 := by
      rw [Nat.div_lt_iff_lt_mul hc, Nat.mul_comm _ W, Nat.succ_mul]
      omega
    omega

/-! ## Claims -/

/-- C1.  For every template text whose stripped content is malformed JSON,
the playbook pipeline aborts with the fatal `Invalid JSON in template` error
before any delivery: no rendered items are produced and zero webhook calls
are made.  (The JSON parser is modelled from the spec; see `json_loads`.) -/
theorem malformed_template_aborts_before_delivery (content : String) (now : Date)
    (oracle : List CallResult) (h : json_loads (stripStr content) = none) :
    playbook content now oracle =
      { error := some "Invalid JSON in template", result := none, calls := 0 } := by
  unfold playbook process_json_template
  rw [h]

/-- Witness for C1 at the spec's own fixture `"\x7bnot valid"`. -/
theorem malformed_template_aborts_witness :
    json_loads (stripStr "\x7bnot valid") = none ∧
    playbook "\x7bnot valid" ⟨2025, 1, 10⟩ [] =
      { error := some "Invalid JSON in template", result := none, calls := 0 } :=
  ⟨rfl, malformed_template_aborts_before_delivery "\x7bnot valid" ⟨2025, 1, 10⟩ [] rfl⟩

/-- C4.  A string leaf that carries both placeholder markers but whose
evaluation against the bindings fails comes back from the renderer as the
original string, unchanged: no exception, no partial substitution.
(Placeholder evaluation is modelled from the spec; see `evalTemplate`.) -/
theorem render_fail_open (s : String) (tv : TemplateVars)
    (hopen : strContains s "\x7b\x7b" = true)
    (hclose : strContains s "\x7d\x7d" = true)
    (heval : evalTemplate s tv = none) :
    render_template_in_value (.str s) tv = .str s := by
  simp [render_template_in_value, hopen, hclose, heval]

/-- Witness for C4 on a string whose placeholder names no bound variable. -/
theorem render_fail_open_witness :
    strContains "x \x7b\x7bnope\x7d\x7d y" "\x7b\x7b" = true ∧
    strContains "x \x7b\x7bnope\x7d\x7d y" "\x7d\x7d" = true ∧
    evalTemplate "x \x7b\x7bnope\x7d\x7d y"
      ⟨"2025-01-10", "01/10/2025", "10/01/2025", "20250110", "Jan 10", 0⟩ = none ∧
    render_template_in_value (.str "x \x7b\x7bnope\x7d\x7d y")
      ⟨"2025-01-10", "01/10/2025", "10/01/2025", "20250110", "Jan 10", 0⟩ =
      .str "x \x7b\x7bnope\x7d\x7d y" :=
  ⟨rfl, rfl, rfl, render_fail_open _ _ rfl rfl rfl⟩

/-- C6.  A response status in `[200, 300)` is classified as delivery
success and every other status or transport error as failure; in particular
199 and 300 fail while 200 and 299 succeed, and the classification is what
drives the counters of the delivery loop. -/
theorem status_code_classification :
    classify (.status 199) = false ∧ classify (.status 200) = true ∧
    classify (.status 299) = true ∧ classify (.status 300) = false ∧
    (∀ code, classify (.status code) = true ↔ (200 ≤ code ∧ code < 300)) ∧
    (∀ msg, classify (.transportError msg) = false) ∧
    send_events_to_webhook [JsonValue.null] [CallResult.status 200] = ⟨1, 0, []⟩ ∧
    send_events_to_webhook [JsonValue.null] [CallResult.status 199] =
      ⟨0, 1, ["Event 1: HTTP 199"]⟩ := by
  refine ⟨rfl, rfl, rfl, rfl, ?_, fun msg => rfl, rfl, rfl⟩
  intro code
  simp [classify]

/-- C7.  Rendering preserves structure: an object becomes an object with
the same keys in the same order and every value rendered recursively, an
array keeps its length with elements rendered in order, and every
non-string scalar passes through unchanged. -/
theorem render_preserves_structure (tv : TemplateVars) :
    (∀ fields, render_template_in_value (.obj fields) tv =
      .obj (fields.map (fun kv => (kv.1, render_template_in_value kv.2 tv)))) ∧
    (∀ fields, (renderFields fields tv).map Prod.fst = fields.map Prod.fst) ∧
    (∀ items, render_template_in_value (.arr items) tv =
      .arr (items.map (fun v => render_template_in_value v tv))) ∧
    (∀ items, (renderList items tv).length = items.length) ∧
    (∀ n, render_template_in_value (.num n) tv = .num n) ∧
    (∀ b, render_template_in_value (.bool b) tv = .bool b) ∧
    render_template_in_value .null tv = .null := by
  refine ⟨?_, ?_, ?_, ?_, fun n => rfl, fun b => rfl, rfl⟩
  · intro fields
    rw [show render_template_in_value (.obj fields) tv =
      .obj (renderFields fields tv) from rfl, renderFields_eq_map]
  · intro fields
    rw [renderFields_eq_map, List.map_map]
    rfl
  · intro items
    rw [show render_template_in_value (.arr items) tv =
      .arr (renderList items tv) from rfl, renderList_eq_map]
  · intro items
    rw [renderList_eq_map, List.length_map]

/-- C9.  A value none of whose string leaves carries both placeholder
markers renders to itself, structurally unchanged, for every binding map. -/
theorem render_id_of_marker_free (v : JsonValue) (tv : TemplateVars)
    (h : markerFree v = true) : render_template_in_value v tv = v := by
  revert h
  induction v using jsonInduction with
  | hstr s =>
      intro h
      have hand : (strContains s "\x7b\x7b" && strContains s "\x7d\x7d") = false := by
        rw [show markerFree (.str s) =
          !(strContains s "\x7b\x7b" && strContains s "\x7d\x7d") from rfl,
          Bool.not_eq_true'] at h
        exact h
      simp [render_template_in_value, hand]
  | hnum n => intro _; rfl
  | hbool b => intro _; rfl
  | hnull => intro _; rfl
  | harr items ih =>
      intro h
      have hm := markerFreeList_mem items (by simpa [markerFree] using h)
      rw [show render_template_in_value (.arr items) tv =
        .arr (renderList items tv) from rfl, renderList_eq_map]
      have hmap : items.map (fun v => render_template_in_value v tv) = items.map id :=
        List.map_congr_left (fun x hx => ih x hx (hm x hx))
      rw [hmap, List.map_id]
  | hobj fields ih =>
      intro h
      have hm := markerFreeFields_mem fields (by simpa [markerFree] using h)
      rw [show render_template_in_value (.obj fields) tv =
        .obj (renderFields fields tv) from rfl, renderFields_eq_map]
      have hmap : fields.map (fun kv => (kv.1, render_template_in_value kv.2 tv)) =
          fields.map id := by
        apply List.map_congr_left
        intro kv hkv
        obtain ⟨k, x⟩ := kv
        have := ih k x hkv (hm (k, x) hkv)
        simp [this]
      rw [hmap, List.map_id]

/-- Witness for C9 on a nested marker-free value (including a string with
only a closing marker, which the guard treats as marker-free). -/
theorem render_id_of_marker_free_witness :
    markerFree (.obj [("a", .str "hello"), ("b", .num 3),
      ("c", .arr [.null, .str "x \x7d\x7d y", .bool true])]) = true ∧
    render_template_in_value (.obj [("a", .str "hello"), ("b", .num 3),
        ("c", .arr [.null, .str "x \x7d\x7d y", .bool true])])
      ⟨"2025-01-10", "01/10/2025", "10/01/2025", "20250110", "Jan 10", 0⟩ =
      .obj [("a", .str "hello"), ("b", .num 3),
        ("c", .arr [.null, .str "x \x7d\x7d y", .bool true])] :=
  ⟨rfl, render_id_of_marker_free _ _ rfl⟩

/-- C2, amended: for a window of size at least 1, the distributor returns a
sequence of length `count`, empty for `count = 0` (without any division),
and its `i`-th entry is the date at window index `⌊i·W/count⌋` — the index
the spec's assignment formula (`distribute_idx`) yields.  For window size 0
and positive `count` the date lookup fails instead (see the
counterexample). -/
theorem distributor_assignment (count : Nat) (dates : List String)
    (hW : 1 ≤ dates.length) :
    distribute_dates 0 dates = some [] ∧
    ∃ out, distribute_dates count dates = some out ∧ out.length = count ∧
      (count = 0 → out = []) ∧
      ∀ i, i < count →
        out[i]? = some (dates.getD ((i * dates.length) / count) "") ∧
        (distribute_idx count dates.length)[i]? =
          some ((i * dates.length) / count) := by
  constructor
  · rfl
  · by_cases hn : count = 0
    · subst hn
      exact ⟨[], rfl, rfl, fun _ => rfl, fun i hi => absurd hi (by omega)⟩
    · refine ⟨_, distribute_dates_eq count dates hn hW, ?_, ?_, ?_⟩
      · simp
      · intro h
        exact absurd h hn
      · intro i hi
        constructor
        · simp [List.getElem?_map, List.getElem?_range, hi]
        · unfold distribute_idx
          rw [if_neg hn]
          simp [List.getElem?_map, List.getElem?_range, hi]

/-- Witness for C2 at three items over the 7-day window of 2025-01-10. -/
theorem distributor_assignment_witness :
    1 ≤ (get_past_week_dates ⟨2025, 1, 10⟩).length ∧
    (distribute_dates 0 (get_past_week_dates ⟨2025, 1, 10⟩) = some [] ∧
     ∃ out, distribute_dates 3 (get_past_week_dates ⟨2025, 1, 10⟩) = some out ∧
       out.length = 3 ∧ (3 = 0 → out = []) ∧
       ∀ i, i < 3 →
         out[i]? = some ((get_past_week_dates ⟨2025, 1, 10⟩).getD
           ((i * (get_past_week_dates ⟨2025, 1, 10⟩).length) / 3) "") ∧
         (distribute_idx 3 (get_past_week_dates ⟨2025, 1, 10⟩).length)[i]? =
           some ((i * (get_past_week_dates ⟨2025, 1, 10⟩).length) / 3)) :=
  ⟨by decide, distributor_assignment 3 (get_past_week_dates ⟨2025, 1, 10⟩) (by decide)⟩

/-- Counterexample to C2 as stated over every window size: at window size 0
with one item the source indexes an empty date list (`IndexError` in
Python), so no sequence of length `count` is returned. -/
theorem distributor_assignment_counterexample :
    distribute_dates 1 [] = none ∧
    ¬ ∃ out, distribute_dates 1 [] = some out ∧ out.length = 1 := by
  refine ⟨rfl, ?_⟩
  rintro ⟨out, h, -⟩
  rw [show distribute_dates 1 [] = none from rfl] at h
  cases h

/-- C8, amended: for a window of size `W ≥ 1` and positive `count`, the
assignment is non-decreasing in the item index, every assigned index lies
in `[0, W)`, for `count ≥ W` every window index is hit, and
`distribute_dates` realises exactly this assignment over any date list of
length `W`.  For `W = 0` the source fails instead (see the
counterexample). -/
theorem distributor_monotone_range_cover (count W : Nat) (hc : 0 < count)
    (hW : 1 ≤ W) :
    (∀ i j, i ≤ j → j < count →
      (distribute_idx count W).getD i 0 ≤ (distribute_idx count W).getD j 0) ∧
    (∀ v ∈ distribute_idx count W, v < W) ∧
    (W ≤ count → ∀ j, j < W → j ∈ distribute_idx count W) ∧
    (∀ dates : List String, dates.length = W →
      distribute_dates count dates =
        some ((distribute_idx count W).map (fun idx => dates.getD idx ""))) := by
  have hn : count ≠ 0 := by omega
  have hget : ∀ k, k < count →
      (distribute_idx count W).getD k 0 = (k * W) / count := by
    intro k hk
    unfold distribute_idx
    rw [if_neg hn, List.getD_eq_getElem?_getD]
    simp [List.getElem?_map, List.getElem?_range, hk]
  refine ⟨?_, ?_, ?_, ?_⟩
  · intro i j hij hj
    rw [hget i (by omega), hget j (by omega)]
    exact Nat.div_le_div_right (Nat.mul_le_mul_right W hij)
  · intro v hv
    unfold distribute_idx at hv
    rw [if_neg hn] at hv
    obtain ⟨i, hi, rfl⟩ := List.mem_map.mp hv
    rw [List.mem_range] at hi
    rw [Nat.div_lt_iff_lt_mul hc]
    calc i * W < count * W := mul_lt_mul_of_pos_right hi (by omega)
      _ = W * count := Nat.mul_comm _ _
  · intro hcW j hj
    obtain ⟨i, hi, hdiv⟩ := assign_hits_every_index count W j hW hcW hj
    unfold distribute_idx
    rw [if_neg hn]
    exact List.mem_map.mpr ⟨i, List.mem_range.mpr hi, hdiv⟩
  · intro dates hd
    subst hd
    rw [distribute_dates_eq count dates hn (by omega)]
    unfold distribute_idx
    rw [if_neg hn, List.map_map]
    rfl

/-- Witness for C8 at ten items over a 7-index window. -/
theorem distributor_monotone_range_cover_witness :
    (0 < 10 ∧ 1 ≤ 7) ∧
    ((∀ i j, i ≤ j → j < 10 →
      (distribute_idx 10 7).getD i 0 ≤ (distribute_idx 10 7).getD j 0) ∧
    (∀ v ∈ distribute_idx 10 7, v < 7) ∧
    (7 ≤ 10 → ∀ j, j < 7 → j ∈ distribute_idx 10 7) ∧
    (∀ dates : List String, dates.length = 7 →
      distribute_dates 10 dates =
        some ((distribute_idx 10 7).map (fun idx => dates.getD idx "")))) :=
  ⟨⟨by decide, by decide⟩,
    distributor_monotone_range_cover 10 7 (by decide) (by decide)⟩

/-- Counterexample to C8 as stated over every window size: at window size 0
with one item the assigned index 0 lies outside the empty range `[0, 0)`,
and the source's date lookup fails. -/
theorem distributor_monotone_range_cover_counterexample :
    distribute_idx 1 0 = [0] ∧ ¬ (∀ v ∈ distribute_idx 1 0, v < 0) ∧
    distribute_dates 1 [] = none := by
  refine ⟨rfl, ?_, rfl⟩
  intro hall
  have := hall 0 (by decide)
  omega

/-- Counterexample to C3 as stated: over the 7-day window with `now` fixed
to 2025-01-10 the three items receive window indices `0, 2, 4` — item 2
renders with date 2025-01-06 and day_offset 4, not 2025-01-05 and 5 as
claimed (and `⌊2·7/3⌋ = 4`, so the spec's own formula agrees). -/
theorem end_to_end_demo_counterexample :
    process_events demoTemplate ⟨2025, 1, 10⟩ =
      some [JsonValue.obj [("msg", JsonValue.str "day 2025-01-10 offset 0")],
            JsonValue.obj [("msg", JsonValue.str "day 2025-01-08 offset 2")],
            JsonValue.obj [("msg", JsonValue.str "day 2025-01-06 offset 4")]] ∧
    distribute_idx 3 7 ≠ [0, 2, 5] ∧
    process_events demoTemplate ⟨2025, 1, 10⟩ ≠
      some [JsonValue.obj [("msg", JsonValue.str "day 2025-01-10 offset 0")],
            JsonValue.obj [("msg", JsonValue.str "day 2025-01-08 offset 2")],
            JsonValue.obj [("msg", JsonValue.str "day 2025-01-05 offset 5")]] := by
  refine ⟨rfl, by decide, ?_⟩
  intro h
  rw [show process_events demoTemplate ⟨2025, 1, 10⟩ =
    some [JsonValue.obj [("msg", JsonValue.str "day 2025-01-10 offset 0")],
          JsonValue.obj [("msg", JsonValue.str "day 2025-01-08 offset 2")],
          JsonValue.obj [("msg", JsonValue.str "day 2025-01-06 offset 4")]] from rfl] at h
  simp at h

set_option maxRecDepth 100000 in
/-- C3, amended: the end-to-end run over the 7-day window of 2025-01-10
assigns the three items window indices `0, 2, 4`; item 0 renders with date
2025-01-10 and day_offset 0, item 1 with 2025-01-08 and 2, and item 2 with
2025-01-06 and 4 — both from the parsed items and from the raw JSON text
through the full structured pipeline. -/
theorem end_to_end_demo :
    get_past_week_dates ⟨2025, 1, 10⟩ =
      ["2025-01-10", "2025-01-09", "2025-01-08", "2025-01-07",
       "2025-01-06", "2025-01-05", "2025-01-04"] ∧
    distribute_idx 3 7 = [0, 2, 4] ∧
    process_events demoTemplate ⟨2025, 1, 10⟩ =
      some [JsonValue.obj [("msg", JsonValue.str "day 2025-01-10 offset 0")],
            JsonValue.obj [("msg", JsonValue.str "day 2025-01-08 offset 2")],
            JsonValue.obj [("msg", JsonValue.str "day 2025-01-06 offset 4")]] ∧
    process_json_template demoText ⟨2025, 1, 10⟩ =
      Except.ok [JsonValue.obj [("msg", JsonValue.str "day 2025-01-10 offset 0")],
            JsonValue.obj [("msg", JsonValue.str "day 2025-01-08 offset 2")],
            JsonValue.obj [("msg", JsonValue.str "day 2025-01-06 offset 4")]] :=
  ⟨by decide, by decide, rfl, rfl⟩

/-- C5.  Delivery visits every item exactly once with no early abort — the
oracle models every transport outcome, and the loop is total — so the
counters sum to the item count, each failure contributes exactly one
recorded description, the aggregate status is `success` exactly when
nothing failed and `partial` otherwise, the reported errors are the first
10 descriptions, and `errors_truncated` counts exactly the suppressed
remainder. -/
theorem delivery_accounting (events : List JsonValue) (oracle : List CallResult)
    (sr : SendResult) (hsr : sr = send_events_to_webhook events oracle)
    (agg : AggResult) (hagg : agg = build_result events.length sr) :
    sr.successful + sr.failed = events.length ∧
    sr.errors.length = sr.failed ∧
    (agg.status = "success" ↔ sr.failed = 0) ∧
    (agg.status = "partial" ↔ sr.failed ≠ 0) ∧
    agg.events_total = events.length ∧
    agg.events_sent = sr.successful ∧
    agg.events_failed = sr.failed ∧
    agg.errors = sr.errors.take 10 ∧
    (sr.errors.length ≤ 10 → agg.errors = sr.errors ∧ agg.errors_truncated = none) ∧
    (10 < sr.errors.length →
      agg.errors.length = 10 ∧ agg.errors_truncated = some (sr.errors.length - 10)) ∧
    agg.errors.length + agg.errors_truncated.getD 0 = sr.errors.length := by
  subst hagg
  subst hsr
  obtain ⟨h1, h2⟩ := send_loop_counts events 0 oracle
  have h1' : (send_events_to_webhook events oracle).successful +
      (send_events_to_webhook events oracle).failed = events.length := h1
  have h2' : (send_events_to_webhook events oracle).errors.length =
      (send_events_to_webhook events oracle).failed := h2
  refine ⟨h1', h2', ?_, ?_, rfl, rfl, rfl, rfl, ?_, ?_, ?_⟩
  · simp only [build_result]
    constructor
    · intro hs
      by_contra hne
      rw [if_neg hne] at hs
      exact absurd hs (by decide)
    · intro h0
      rw [if_pos h0]
  · simp only [build_result]
    constructor
    · intro hs
      intro h0
      rw [if_pos h0] at hs
      exact absurd hs (by decide)
    · intro hne
      rw [if_neg hne]
  · intro hle
    simp only [build_result]
    exact ⟨List.take_of_length_le hle, if_neg (by omega)⟩
  · intro hgt
    simp only [build_result]
    refine ⟨?_, if_pos hgt⟩
    rw [List.length_take]
    omega
  · by_cases hlen : 10 < (send_events_to_webhook events oracle).errors.length
    · simp only [build_result, if_pos hlen, Option.getD_some, List.length_take]
      omega
    · simp only [build_result, if_neg hlen, Option.getD_none, List.length_take]
      omega

/-- Witness for C5 at one event whose single call is a transport error. -/
theorem delivery_accounting_witness :
    (send_events_to_webhook [JsonValue.null] []).successful +
      (send_events_to_webhook [JsonValue.null] []).failed = 1 ∧
    (send_events_to_webhook [JsonValue.null] []).errors.length =
      (send_events_to_webhook [JsonValue.null] []).failed ∧
    ((build_result 1 (send_events_to_webhook [JsonValue.null] [])).status =
      "success" ↔ (send_events_to_webhook [JsonValue.null] []).failed = 0) ∧
    ((build_result 1 (send_events_to_webhook [JsonValue.null] [])).status =
      "partial" ↔ (send_events_to_webhook [JsonValue.null] []).failed ≠ 0) ∧
    (build_result 1 (send_events_to_webhook [JsonValue.null] [])).events_total = 1 ∧
    (build_result 1 (send_events_to_webhook [JsonValue.null] [])).events_sent =
      (send_events_to_webhook [JsonValue.null] []).successful ∧
    (build_result 1 (send_events_to_webhook [JsonValue.null] [])).events_failed =
      (send_events_to_webhook [JsonValue.null] []).failed ∧
    (build_result 1 (send_events_to_webhook [JsonValue.null] [])).errors =
      (send_events_to_webhook [JsonValue.null] []).errors.take 10 ∧
    ((send_events_to_webhook [JsonValue.null] []).errors.length ≤ 10 →
      (build_result 1 (send_events_to_webhook [JsonValue.null] [])).errors =
        (send_events_to_webhook [JsonValue.null] []).errors ∧
      (build_result 1 (send_events_to_webhook [JsonValue.null] [])).errors_truncated =
        none) ∧
    (10 < (send_events_to_webhook [JsonValue.null] []).errors.length →
      (build_result 1 (send_events_to_webhook [JsonValue.null] [])).errors.length = 10 ∧
      (build_result 1 (send_events_to_webhook [JsonValue.null] [])).errors_truncated =
        some ((send_events_to_webhook [JsonValue.null] []).errors.length - 10)) ∧
    (build_result 1 (send_events_to_webhook [JsonValue.null] [])).errors.length +
      (build_result 1 (send_events_to_webhook [JsonValue.null] [])).errors_truncated.getD 0 =
      (send_events_to_webhook [JsonValue.null] []).errors.length :=
  delivery_accounting [JsonValue.null] [] _ rfl _ rfl

/-- C10.  Line-mode delivery groups the lines into consecutive batches of
at most 10 (all but the last exactly 10), flattening the batches gives back
the lines in order, and each batch's whole length is credited to the
success or failure counter by its single call's outcome, so the counters
sum to the line count and per-line outcomes are never distinguished inside
a batch. -/
theorem line_mode_batching (lines : List String) (oracle : List CallResult) :
    (batches10 lines).flatten = lines ∧
    (∀ b ∈ batches10 lines, 0 < b.length ∧ b.length ≤ 10) ∧
    (∀ k, k + 1 < (batches10 lines).length →
      ((batches10 lines).getD k []).length = 10) ∧
    send_to_webhook lines oracle =
      (batchOutcomeSum (batches10 lines) 0 oracle true,
       batchOutcomeSum (batches10 lines) 0 oracle false) ∧
    (send_to_webhook lines oracle).1 + (send_to_webhook lines oracle).2 =
      lines.length := by
  refine ⟨batchesAux_join lines.length lines (le_refl _),
    fun b hb => batchesAux_mem lines.length lines (le_refl _) b hb,
    fun k hk => batchesAux_nonlast lines.length lines k (le_refl _) hk,
    sendBatchLoop_eq (batches10 lines) 0 oracle, ?_⟩
  have h1 := batchOutcomeSum_total (batches10 lines) 0 oracle
  have h2 := List.length_flatten (batches10 lines)
  have h3 : (batches10 lines).flatten = lines :=
    batchesAux_join lines.length lines (le_refl _)
  rw [h3] at h2
  rw [show send_to_webhook lines oracle =
    sendBatchLoop (batches10 lines) 0 oracle from rfl,
    sendBatchLoop_eq]
  dsimp only
  omega

/-- Witness for C10 at 12 lines: one full batch that succeeds and one
two-line batch whose single failing call marks both its lines failed. -/
theorem line_mode_batching_witness :
    (batches10 (List.replicate 12 "line")).flatten = List.replicate 12 "line" ∧
    (∀ b ∈ batches10 (List.replicate 12 "line"), 0 < b.length ∧ b.length ≤ 10) ∧
    (∀ k, k + 1 < (batches10 (List.replicate 12 "line")).length →
      ((batches10 (List.replicate 12 "line")).getD k []).length = 10) ∧
    send_to_webhook (List.replicate 12 "line")
        [CallResult.status 200, CallResult.status 500] =
      (batchOutcomeSum (batches10 (List.replicate 12 "line")) 0
        [CallResult.status 200, CallResult.status 500] true,
       batchOutcomeSum (batches10 (List.replicate 12 "line")) 0
        [CallResult.status 200, CallResult.status 500] false) ∧
    (send_to_webhook (List.replicate 12 "line")
        [CallResult.status 200, CallResult.status 500]).1 +
      (send_to_webhook (List.replicate 12 "line")
        [CallResult.status 200, CallResult.status 500]).2 = 12 :=
  line_mode_batching (List.replicate 12 "line")
    [CallResult.status 200, CallResult.status 500]
